import Mathlib

/-!
# Verification of the Bambu Plate Analyzer core

Shallow embedding of `custom_components/bambu_plate_analyzer/sensor.py`:
the Color-to-Identity Bounding-Box Extractor (`compute_bounding_boxes`),
the JPEG Normalizer (`convert_to_jpeg`), the coordinator state update
(`_process_plate_data`), and the compact serializer
(`_bbox_data_serialized`).

Decoded raster images are modelled as a mode string, a width, a height and
a per-coordinate pixel accessor returning what PIL's `image.load()[x, y]`
returns: an int for mode "L", a 2-tuple for "LA", a 3-tuple for "RGB" and
a 4-tuple for "RGBA".  Image bytes are modelled as `Option PILImage`
(`none` means the bytes are not a decodable raster, in which case
`Image.open` raises).
-/

/-- A value returned by PIL's pixel access `pixels[x, y]`: the arity of the
tuple depends on the image mode (int for "L", pairs for "LA", triples for
"RGB", quadruples for "RGBA"). -/
inductive PyPixel where
  | i1 (v : Nat)
  | t2 (l a : Nat)
  | t3 (r g b : Nat)
  | t4 (r g b a : Nat)
  deriving DecidableEq, Repr

/-- A decoded raster image as produced by `Image.open`: a mode string,
dimensions, and random-access pixels. -/
structure PILImage where
  mode : String
  width : Nat
  height : Nat
  px : Nat → Nat → PyPixel

/-- An RGBA pixel after the successful unpacking `r, g, b, a = current_color`. -/
structure Pixel where
  r : Nat
  g : Nat
  b : Nat
  a : Nat
  deriving DecidableEq, Repr

/-- A bounding box `[min_x, min_y, max_x, max_y]` as kept in the `bboxes`
dict of `compute_bounding_boxes`. -/
structure BBox where
  minX : Nat
  minY : Nat
  maxX : Nat
  maxY : Nat
  deriving DecidableEq, Repr

/-- Python's uppercase hexadecimal digit for `n < 16`
(the characters produced by the `%X` / `{…:02X}` format). -/
def hexChar (n : Nat) : Char :=
  if n < 10 then Char.ofNat (48 + n) else Char.ofNat (55 + n)

/-- Hexadecimal digits, least significant first, empty for `0`; structural
recursion on a fuel argument so the kernel can evaluate it. -/
def toHexRevFuel : Nat → Nat → List Char
  | 0, _ => []
  | _, 0 => []
  | fuel + 1, n + 1 => hexChar ((n + 1) % 16) :: toHexRevFuel fuel ((n + 1) / 16)

/-- Hexadecimal digits of `n`, least significant first, empty for `0`
(`n` itself is always enough fuel, since a number has at most as many hex
digits as its value). -/
def toHexRev (n : Nat) : List Char :=
  toHexRevFuel n n

/-- Python's `f"{n:02X}"`: uppercase hex, zero-padded on the left to width
at least 2. -/
def format02X (n : Nat) : String :=
  let ds := if n = 0 then ['0'] else (toHexRev n).reverse
  ⟨List.replicate (2 - ds.length) '0' ++ ds⟩

/-- Numeric value of a hexadecimal digit character, as accepted by
Python's `int(_, 16)` (case insensitive); `0` on a non-digit, which never
occurs on the strings built by `format02X`. -/
def hexVal (c : Char) : Nat :=
  if 48 ≤ c.toNat ∧ c.toNat ≤ 57 then c.toNat - 48
  else if 65 ≤ c.toNat ∧ c.toNat ≤ 70 then c.toNat - 55
  else if 97 ≤ c.toNat ∧ c.toNat ≤ 102 then c.toNat - 87
  else 0

/-- Python's `int("0x" ++ digits, 16)` on a string of valid hex digits. -/
def parseHexNat (s : String) : Nat :=
  s.data.foldl (fun acc c => acc * 16 + hexVal c) 0

/-- `str(int(f"0x{b:02X}{g:02X}{r:02X}", 16))` from
`compute_bounding_boxes` — the BGR-packed identifier, as the decimal
string used as dict key. -/
def identify_id (p : Pixel) : String :=
  toString (parseHexNat (format02X p.b ++ format02X p.g ++ format02X p.r))

/-- Association-list lookup, the membership/indexing of a Python dict with
string keys (in insertion order; the order is irrelevant to lookups). -/
def alookup {α : Type} : List (String × α) → String → Option α
  | [], _ => none
  | (k, v) :: rest, key => if k = key then some v else alookup rest key

/-- The in-place bounding-box expansion of `compute_bounding_boxes`:
`if x < bbox[0]: bbox[0] = x`, etc. -/
def updateBBox (bb : BBox) (x y : Nat) : BBox :=
  { minX := if x < bb.minX then x else bb.minX
    minY := if y < bb.minY then y else bb.minY
    maxX := if x > bb.maxX then x else bb.maxX
    maxY := if y > bb.maxY then y else bb.maxY }

/-- Replace the value at key `k` (known present) by its expansion; models
the in-place mutation of the list object held in the dict. -/
def assocUpdate : List (String × BBox) → String → Nat → Nat → List (String × BBox)
  | [], _, _, _ => []
  | (k, v) :: rest, key, x, y =>
      if k = key then (k, updateBBox v x y) :: rest
      else (k, v) :: assocUpdate rest key x y

/-- The loop body of `compute_bounding_boxes` after a successful unpack:
skip on `a == 0`, otherwise compute the identifier and seed or expand its
bounding box.  (The `seen_colors` dict is a memoization of the pure
function `identify_id` and does not affect the result.) -/
def stepPixel (bbs : List (String × BBox)) (x y : Nat) (p : Pixel) :
    List (String × BBox) :=
  if p.a = 0 then bbs
  else
    let key := identify_id p
    match alookup bbs key with
    | some _ => assocUpdate bbs key x y
    | none => bbs ++ [(key, ⟨x, y, x, y⟩)]

/-- The row-major scan order of the two nested loops:
`for y in range(height): for x in range(width)`. -/
def pixelList (w h : Nat) : List (Nat × Nat) :=
  (List.range h).flatMap fun y => (List.range w).map fun x => (x, y)

/-- One iteration of the scan including the unpacking
`r, g, b, a = current_color`, which raises (TypeError/ValueError) when the
pixel is not a 4-tuple. -/
def scanStep (bbs : List (String × BBox)) (xy : Nat × Nat) (p : PyPixel) :
    Except Unit (List (String × BBox)) :=
  match p with
  | .t4 r g b a => .ok (stepPixel bbs xy.1 xy.2 ⟨r, g, b, a⟩)
  | _ => .error ()

/-- The result dict of `compute_bounding_boxes`. -/
structure AnalysisResult where
  image_width : Nat
  image_height : Nat
  bboxes : List (String × BBox)
  deriving DecidableEq, Repr

/-- `compute_bounding_boxes(image_bytes)`: decode (raising on undecodable
bytes, modelled by `none`), then scan all pixels row-major, skipping fully
transparent ones and growing one bounding box per BGR-packed identifier. -/
def compute_bounding_boxes (imageBytes : Option PILImage) :
    Except Unit AnalysisResult :=
  match imageBytes with
  | none => .error ()
  | some image =>
      match (pixelList image.width image.height).foldlM
          (fun bbs xy => scanStep bbs xy (image.px xy.1 xy.2)) [] with
      | .error e => .error e
      | .ok bbs =>
          .ok { image_width := image.width, image_height := image.height,
                bboxes := bbs }

/-- `current_color` is a 4-tuple, as in mode-"RGBA" pixel access. -/
def arity4 : PyPixel → Bool
  | .t4 _ _ _ _ => true
  | _ => false

/-- `current_color` is a 4-tuple with alpha exactly 0. -/
def transparent4 : PyPixel → Bool
  | .t4 _ _ _ 0 => true
  | _ => false

/-- The `Pixel` obtained by the unpacking `r, g, b, a = current_color`;
only meaningful (and only used below) when `arity4` holds. -/
def toPixel : PyPixel → Pixel
  | .t4 r g b a => ⟨r, g, b, a⟩
  | .t3 r g b => ⟨r, g, b, 0⟩
  | .t2 l a => ⟨l, l, l, a⟩
  | .i1 v => ⟨v, v, v, 0⟩

/-- The pure row-major scan of `stepPixel` over a list of coordinates
(the loop of `compute_bounding_boxes` once every unpack succeeded). -/
def pureScan (f : Nat → Nat → Pixel) (ps : List (Nat × Nat))
    (bbs : List (String × BBox)) : List (String × BBox) :=
  ps.foldl (fun bbs xy => stepPixel bbs xy.1 xy.2 (f xy.1 xy.2)) bbs

/-- Whether the pixel at `xy` contributes to the bounding box of key `k`:
nonzero alpha and BGR identifier equal to `k`. -/
def hitsKey (f : Nat → Nat → Pixel) (k : String) (xy : Nat × Nat) : Bool :=
  decide ((f xy.1 xy.2).a ≠ 0 ∧ identify_id (f xy.1 xy.2) = k)

/-- Expand a bounding box by a list of coordinates, one `updateBBox` at a
time. -/
def growAll (bb : BBox) (ps : List (Nat × Nat)) : BBox :=
  ps.foldl (fun bb xy => updateBBox bb xy.1 xy.2) bb

/-- The box obtained from a list of contributing coordinates: none when
there are none, otherwise the first seeds `[x, y, x, y]` and the rest
expand it. -/
def seedScan : List (Nat × Nat) → Option BBox
  | [] => none
  | (x, y) :: rest => some (growAll ⟨x, y, x, y⟩ rest)

/-- The row-major coordinates of the pixels of `img` with nonzero alpha
whose BGR identifier is `k`. -/
def coordsOf (img : PILImage) (k : String) : List (Nat × Nat) :=
  (pixelList img.width img.height).filter
    (hitsKey (fun x y => toPixel (img.px x y)) k)

/-- The image of the C3 example: one opaque pixel of color (1,2,3) at
(5,5) and another of the same color at (10,2), transparent elsewhere. -/
def exampleImageC3 : PILImage :=
  ⟨"RGBA", 11, 6, fun x y =>
    if (x = 5 ∧ y = 5) ∨ (x = 10 ∧ y = 2) then .t4 1 2 3 255
    else .t4 0 0 0 0⟩

/-- One value of the merged `objects` dict built by `_process_plate_data`:
`{"name": name}` plus `"bbox"` when the identifier is in `bboxes`. -/
structure ObjRecord where
  name : String
  bbox : Option BBox
  deriving DecidableEq, Repr

/-- The merge loop of `_process_plate_data`: one record per entry of the
upstream name mapping, in its order, with the bounding box attached when
the identifier is a key of `bboxes`. -/
def mergeObjects (objectsAttr : List (String × String))
    (bboxes : List (String × BBox)) : List (String × ObjRecord) :=
  objectsAttr.map fun idname => (idname.1, ⟨idname.2, alookup bboxes idname.1⟩)

/-- `_bbox_data_serialized`'s per-object segment:
`f"{identify_id}:{name}:{bbox[0]},{bbox[1]},{bbox[2]},{bbox[3]}"` when
`obj_data.get("bbox")` is truthy (it is always a 4-element list when
present), `f"{identify_id}:{name}:"` otherwise. -/
def serializeObj (identifyId : String) (objData : ObjRecord) : String :=
  match objData.bbox with
  | some bb =>
      identifyId ++ ":" ++ objData.name ++ ":" ++ toString bb.minX ++ "," ++
        toString bb.minY ++ "," ++ toString bb.maxX ++ "," ++ toString bb.maxY
  | none => identifyId ++ ":" ++ objData.name ++ ":"

/-- `_bbox_data_serialized`: the empty string when `self._objects` is
empty, otherwise the per-object segments joined with `"|"`. -/
def bbox_data_serialized (objects : List (String × ObjRecord)) : String :=
  if objects = [] then ""
  else String.intercalate "|" (objects.map fun kv => serializeObj kv.1 kv.2)

/-- The published state fields of the sensor that `_process_plate_data`
touches: `_object_count`, `_objects`, `_image_width`, `_image_height`. -/
structure SensorState where
  object_count : Nat
  objects : List (String × ObjRecord)
  image_width : Nat
  image_height : Nat
  deriving DecidableEq, Repr

/-- `native_value`: the number of detected objects. -/
def native_value (s : SensorState) : Nat :=
  s.object_count

/-- `_process_plate_data` as a state transition.  `objectsAttr` is the
upstream `objects` attribute (empty dict or missing both model as `[]`);
`fetched` is the outcome of `_async_get_pick_image` (`none` when it
returned `None`), the inner `Option PILImage` being the bytes handed to
`compute_bounding_boxes` (`none` for undecodable bytes).  On an empty
mapping all four fields are zeroed; on a fetch or extractor failure the
function returns early leaving the state untouched; otherwise it
publishes the merged record and the image dimensions.  The JPEG
conversion step only fills the per-entry cache and never changes these
fields, so it is omitted. -/
def process_plate_data (s : SensorState)
    (objectsAttr : List (String × String))
    (fetched : Option (Option PILImage)) : SensorState :=
  if objectsAttr = [] then ⟨0, [], 0, 0⟩
  else
    match fetched with
    | none => s
    | some imageBytes =>
        match compute_bounding_boxes imageBytes with
        | .error _ => s
        | .ok result =>
            let merged := mergeObjects objectsAttr result.bboxes
            ⟨merged.length, merged, result.image_width, result.image_height⟩

/-- An RGB raster as handed to `image.save(buf, format="JPEG", ...)`. -/
structure RGBImage where
  width : Nat
  height : Nat
  px : Nat → Nat → Nat × Nat × Nat

/-- The output of `convert_to_jpeg`: the RGB raster together with the
quality passed to `image.save(buf, format="JPEG", quality=quality)`; the
JPEG byte encoding itself is the external codec, kept abstract as this
pair. -/
structure JPEGOutput where
  image : RGBImage
  quality : Nat

/-- PIL's `MULDIV255` rounding step from Paste.c
(`tmp = a*b + 128; ((tmp >> 8) + tmp) >> 8`), i.e. `a*b/255` rounded. -/
def muldiv255 (a b : Nat) : Nat :=
  ((a * b + 128) / 256 + (a * b + 128)) / 256

/-- `bg.paste(image, mask=image.split()[3])` onto the opaque black canvas
`Image.new("RGB", size, (0, 0, 0))`: per channel
`out = MULDIV255(bg, 255 - alpha) + MULDIV255(src, alpha)` with `bg = 0`,
modelled from PIL's blend formula.  Non-4-tuple pixels cannot occur in
mode "RGBA". -/
def pasteOnBlack (image : PILImage) : RGBImage :=
  ⟨image.width, image.height, fun x y =>
    match image.px x y with
    | .t4 r g b a => (muldiv255 r a, muldiv255 g a, muldiv255 b a)
    | _ => (0, 0, 0)⟩

/-- `image.convert("RGB")`, modelled from PIL's conversion semantics: the
alpha band, when present, is dropped without any compositing, and a
grayscale value is replicated across the three channels. -/
def convertRGB (image : PILImage) : RGBImage :=
  ⟨image.width, image.height, fun x y =>
    match image.px x y with
    | .t4 r g b _ => (r, g, b)
    | .t3 r g b => (r, g, b)
    | .t2 l _ => (l, l, l)
    | .i1 l => (l, l, l)⟩

/-- An image already in mode "RGB", read as the RGB raster it is (the
`image` variable reaches `save` unchanged); its pixels are 3-tuples. -/
def rgbView (image : PILImage) : RGBImage :=
  ⟨image.width, image.height, fun x y =>
    match image.px x y with
    | .t4 r g b _ => (r, g, b)
    | .t3 r g b => (r, g, b)
    | .t2 l _ => (l, l, l)
    | .i1 l => (l, l, l)⟩

/-- `convert_to_jpeg(image_bytes, quality=80)` on decodable bytes:
composite onto black only when `image.mode == "RGBA"`, call
`convert("RGB")` for any other non-"RGB" mode, then encode at `quality`. -/
def convert_to_jpeg (image : PILImage) (quality : Nat := 80) : JPEGOutput :=
  if image.mode = "RGBA" then ⟨pasteOnBlack image, quality⟩
  else if image.mode ≠ "RGB" then ⟨convertRGB image, quality⟩
  else ⟨rgbView image, quality⟩

/-- Whether a PIL mode carries an alpha channel, from PIL's mode list:
"RGBA", "LA", "PA" and the premultiplied "RGBa", "La". -/
def hasAlphaChannel (mode : String) : Bool :=
  mode = "RGBA" || mode = "LA" || mode = "PA" || mode = "RGBa" || mode = "La"

/-- A 1×1 mode-"LA" image: gray 200, alpha 0. -/
def exampleImageLA : PILImage :=
  ⟨"LA", 1, 1, fun _ _ => .t2 200 0⟩

example : identify_id ⟨0x12, 0x34, 0x56, 255⟩ = "5649426" := by rfl

example :
    compute_bounding_boxes (some ⟨"RGBA", 2, 1, fun x _ =>
      if x = 0 then .t4 1 0 0 255 else .t4 1 0 0 0⟩) =
    .ok ⟨2, 1, [("1", ⟨0, 0, 0, 0⟩)]⟩ := by rfl

set_option maxRecDepth 4096 in
lemma format02X_two_digits :
    ∀ n, n < 256 → (format02X n).data = [hexChar (n / 16), hexChar (n % 16)] := by
  decide

lemma hexVal_hexChar : ∀ d, d < 16 → hexVal (hexChar d) = d := by
  decide

lemma parseHexNat_bgr (r g b : Nat) (hr : r < 256) (hg : g < 256) (hb : b < 256) :
    parseHexNat (format02X b ++ format02X g ++ format02X r) =
      b * 65536 + g * 256 + r := by
  unfold parseHexNat
  rw [String.data_append, String.data_append,
    format02X_two_digits b hb, format02X_two_digits g hg,
    format02X_two_digits r hr]
  simp only [List.cons_append, List.nil_append, List.foldl]
  rw [hexVal_hexChar (b / 16) (by omega), hexVal_hexChar (b % 16) (by omega),
    hexVal_hexChar (g / 16) (by omega), hexVal_hexChar (g % 16) (by omega),
    hexVal_hexChar (r / 16) (by omega), hexVal_hexChar (r % 16) (by omega)]
  omega

/-- C1: for every pixel processed by `compute_bounding_boxes` with alpha
not equal to 0, the identifier assigned to it is the decimal string of
`B * 65536 + G * 256 + R`, the 24-bit integer packing the RGB triple in
B,G,R byte order. -/
theorem c1_bgr_identifier (r g b a x y : Nat) (ha : a ≠ 0)
    (hr : r < 256) (hg : g < 256) (hb : b < 256) :
    identify_id ⟨r, g, b, a⟩ = toString (b * 65536 + g * 256 + r) ∧
    stepPixel [] x y ⟨r, g, b, a⟩ =
      [(toString (b * 65536 + g * 256 + r), ⟨x, y, x, y⟩)] := by
  have hid : identify_id ⟨r, g, b, a⟩ = toString (b * 65536 + g * 256 + r) := by
    unfold identify_id
    rw [parseHexNat_bgr r g b hr hg hb]
  refine ⟨hid, ?_⟩
  unfold stepPixel
  simp [ha, hid, alookup]

/-- Witness for C1: a fully opaque pixel with R=0x12, G=0x34, B=0x56 is
assigned identifier "5649426", the decimal value of 0x563412. -/
theorem c1_bgr_identifier_witness :
    identify_id ⟨0x12, 0x34, 0x56, 255⟩ = "5649426" ∧
    stepPixel [] 5 7 ⟨0x12, 0x34, 0x56, 255⟩ = [("5649426", ⟨5, 7, 5, 7⟩)] := by
  have h := c1_bgr_identifier 0x12 0x34 0x56 255 5 7 (by decide)
    (by decide) (by decide) (by decide)
  exact ⟨h.1.trans (by rfl), h.2.trans (by rfl)⟩

lemma arity4_iff (p : PyPixel) :
    arity4 p = true ↔ ∃ r g b a, p = .t4 r g b a := by
  cases p <;> simp [arity4]

lemma transparent4_iff (p : PyPixel) :
    transparent4 p = true ↔ ∃ r g b, p = .t4 r g b 0 := by
  cases p with
  | t4 r g b a => cases a <;> simp [transparent4]
  | i1 v => simp [transparent4]
  | t2 l a => simp [transparent4]
  | t3 r g b => simp [transparent4]

lemma mem_pixelList {w h : Nat} {xy : Nat × Nat} :
    xy ∈ pixelList w h ↔ xy.1 < w ∧ xy.2 < h := by
  cases xy with
  | mk x y =>
    simp only [pixelList, List.mem_flatMap, List.mem_map, List.mem_range,
      Prod.mk.injEq]
    constructor
    · rintro ⟨a, ha, bx, hbx, rfl, rfl⟩
      exact ⟨hbx, ha⟩
    · rintro ⟨hx, hy⟩
      exact ⟨y, hy, x, hx, rfl, rfl⟩

/-- When every scanned pixel is a 4-tuple, the raising scan of
`compute_bounding_boxes` succeeds and equals the pure fold of `stepPixel`. -/
lemma foldlM_scan_ok (f : Nat → Nat → PyPixel) (ps : List (Nat × Nat)) :
    ∀ bbs, (∀ xy ∈ ps, arity4 (f xy.1 xy.2) = true) →
    ps.foldlM (fun bbs xy => scanStep bbs xy (f xy.1 xy.2)) bbs =
      Except.ok (ps.foldl
        (fun bbs xy => stepPixel bbs xy.1 xy.2 (toPixel (f xy.1 xy.2))) bbs) := by
  induction ps with
  | nil => intro bbs _; rfl
  | cons xy ps ih =>
    intro bbs h
    obtain ⟨r, g, b, a, hp⟩ :=
      (arity4_iff _).mp (h xy (List.mem_cons_self xy ps))
    rw [List.foldlM_cons, List.foldl_cons, hp]
    have hstep : scanStep bbs xy (PyPixel.t4 r g b a) =
        Except.ok (stepPixel bbs xy.1 xy.2 (toPixel (PyPixel.t4 r g b a))) := rfl
    rw [hstep]
    show ps.foldlM _ _ = _
    exact ih _ (fun xy2 h2 => h xy2 (List.mem_cons_of_mem _ h2))

lemma stepPixel_alpha0 (bbs : List (String × BBox)) (x y r g b : Nat) :
    stepPixel bbs x y ⟨r, g, b, 0⟩ = bbs := by
  simp [stepPixel]

/-- C2: a pixel with alpha exactly 0 neither seeds nor expands any
bounding box, and an image all of whose pixels have alpha 0 yields an
empty bboxes map. -/
theorem c2_transparency_exclusion (img : PILImage)
    (h : ∀ x, x < img.width → ∀ y, y < img.height →
      transparent4 (img.px x y) = true) :
    compute_bounding_boxes (some img) = .ok ⟨img.width, img.height, []⟩ ∧
    ∀ bbs x y r g b, stepPixel bbs x y ⟨r, g, b, 0⟩ = bbs := by
  refine ⟨?_, fun bbs x y r g b => stepPixel_alpha0 bbs x y r g b⟩
  have harity : ∀ xy ∈ pixelList img.width img.height,
      arity4 (img.px xy.1 xy.2) = true := by
    intro xy hxy
    have hm := mem_pixelList.mp hxy
    obtain ⟨r, g, b, hp⟩ := (transparent4_iff _).mp (h xy.1 hm.1 xy.2 hm.2)
    rw [hp]; rfl
  have hfold : (pixelList img.width img.height).foldl
      (fun bbs xy => stepPixel bbs xy.1 xy.2 (toPixel (img.px xy.1 xy.2))) [] =
      ([] : List (String × BBox)) := by
    have : ∀ (ps : List (Nat × Nat)) (bbs : List (String × BBox)),
        (∀ xy ∈ ps, transparent4 (img.px xy.1 xy.2) = true) →
        ps.foldl (fun bbs xy =>
          stepPixel bbs xy.1 xy.2 (toPixel (img.px xy.1 xy.2))) bbs = bbs := by
      intro ps
      induction ps with
      | nil => intro bbs _; rfl
      | cons xy ps ih =>
        intro bbs hh
        obtain ⟨r, g, b, hp⟩ :=
          (transparent4_iff _).mp (hh xy (List.mem_cons_self xy ps))
        rw [List.foldl_cons, hp]
        show ps.foldl _ (stepPixel bbs xy.1 xy.2 ⟨r, g, b, 0⟩) = bbs
        rw [stepPixel_alpha0]
        exact ih bbs (fun xy2 h2 => hh xy2 (List.mem_cons_of_mem _ h2))
    apply this
    intro xy hxy
    have hm := mem_pixelList.mp hxy
    exact h xy.1 hm.1 xy.2 hm.2
  have hscan := foldlM_scan_ok img.px (pixelList img.width img.height) [] harity
  rw [hfold] at hscan
  simp only [compute_bounding_boxes, hscan]

/-- Witness for C2: a 2×2 fully transparent RGBA image yields an empty
bboxes map. -/
theorem c2_transparency_exclusion_witness :
    compute_bounding_boxes (some ⟨"RGBA", 2, 2, fun _ _ => .t4 9 9 9 0⟩) =
      .ok ⟨2, 2, []⟩ :=
  (c2_transparency_exclusion ⟨"RGBA", 2, 2, fun _ _ => .t4 9 9 9 0⟩
    (by intro x hx y hy; rfl)).1

lemma alookup_assocUpdate_self (k : String) (x y : Nat) :
    ∀ (bbs : List (String × BBox)) (bb : BBox), alookup bbs k = some bb →
    alookup (assocUpdate bbs k x y) k = some (updateBBox bb x y) := by
  intro bbs
  induction bbs with
  | nil => intro bb h; simp [alookup] at h
  | cons kv rest ih =>
    intro bb h
    by_cases hk : kv.1 = k
    · simp [alookup, hk] at h
      simp [assocUpdate, alookup, hk, h]
    · simp [alookup, hk] at h
      simp [assocUpdate, alookup, hk]
      exact ih bb h

lemma alookup_assocUpdate_ne (k k2 : String) (x y : Nat) (hne : k ≠ k2) :
    ∀ bbs : List (String × BBox),
    alookup (assocUpdate bbs k x y) k2 = alookup bbs k2 := by
  intro bbs
  induction bbs with
  | nil => rfl
  | cons kv rest ih =>
    by_cases hk : kv.1 = k
    · have h2 : kv.1 ≠ k2 := hk ▸ hne
      simp [assocUpdate, alookup, hk, h2, hne]
    · by_cases hk2 : kv.1 = k2
      · simp [assocUpdate, alookup, hk, hk2, Ne.symm hne]
      · simp [assocUpdate, alookup, hk, hk2, ih]

lemma alookup_append (k : String) (l2 : List (String × BBox)) :
    ∀ bbs : List (String × BBox),
    alookup (bbs ++ l2) k =
      match alookup bbs k with
      | some bb => some bb
      | none => alookup l2 k := by
  intro bbs
  induction bbs with
  | nil => rfl
  | cons kv rest ih =>
    by_cases hk : kv.1 = k
    · simp [alookup, hk]
    · simp [alookup, hk, ih]

/-- What one loop iteration does to the box looked up at key `k`. -/
lemma alookup_stepPixel (bbs : List (String × BBox)) (x y : Nat) (p : Pixel)
    (k : String) :
    alookup (stepPixel bbs x y p) k =
      if p.a ≠ 0 ∧ identify_id p = k then
        match alookup bbs k with
        | some bb => some (updateBBox bb x y)
        | none => some ⟨x, y, x, y⟩
      else alookup bbs k := by
  by_cases ha : p.a = 0
  · simp [stepPixel, ha]
  · cases hlook : alookup bbs (identify_id p) with
    | some bb =>
      have hL : stepPixel bbs x y p = assocUpdate bbs (identify_id p) x y := by
        simp [stepPixel, ha, hlook]
      rw [hL]
      by_cases hk : identify_id p = k
      · rw [if_pos ⟨ha, hk⟩]
        have hbk : alookup bbs k = some bb := hk ▸ hlook
        rw [hbk]
        exact hk ▸ alookup_assocUpdate_self (identify_id p) x y bbs bb hlook
      · rw [if_neg (fun hc => hk hc.2)]
        exact alookup_assocUpdate_ne (identify_id p) k x y hk bbs
    | none =>
      have hL : stepPixel bbs x y p =
          bbs ++ [(identify_id p, ⟨x, y, x, y⟩)] := by
        simp [stepPixel, ha, hlook]
      rw [hL, alookup_append]
      by_cases hk : identify_id p = k
      · have hkk : alookup bbs k = none := hk ▸ hlook
        rw [if_pos ⟨ha, hk⟩, hkk]
        simp [alookup, hk]
      · rw [if_neg (fun hc => hk hc.2)]
        cases h2 : alookup bbs k with
        | some bb => rfl
        | none => simp [alookup, hk]

/-- The fold invariant of the scan: the box at key `k` after scanning `ps`
is the box before, expanded by exactly the contributing coordinates of
`ps` (seeded by the first when there was no box before). -/
lemma alookup_pureScan (f : Nat → Nat → Pixel) (k : String)
    (ps : List (Nat × Nat)) :
    ∀ bbs : List (String × BBox),
    alookup (pureScan f ps bbs) k =
      match alookup bbs k with
      | some bb => some (growAll bb (ps.filter (hitsKey f k)))
      | none => seedScan (ps.filter (hitsKey f k)) := by
  induction ps with
  | nil =>
    intro bbs
    cases h : alookup bbs k <;> simp [pureScan, growAll, seedScan, h]
  | cons xy ps ih =>
    intro bbs
    have hstep : pureScan f (xy :: ps) bbs =
        pureScan f ps (stepPixel bbs xy.1 xy.2 (f xy.1 xy.2)) := rfl
    rw [hstep, ih]
    rw [alookup_stepPixel]
    by_cases hhit : (f xy.1 xy.2).a ≠ 0 ∧ identify_id (f xy.1 xy.2) = k
    · have hfil : (xy :: ps).filter (hitsKey f k) =
          xy :: ps.filter (hitsKey f k) := by
        simp [List.filter, hitsKey, hhit]
      rw [if_pos hhit, hfil]
      cases h : alookup bbs k with
      | some bb =>
        cases xy with
        | mk x y => simp [growAll]
      | none =>
        cases xy with
        | mk x y => simp [seedScan, growAll]
    · have hfil : (xy :: ps).filter (hitsKey f k) = ps.filter (hitsKey f k) := by
        simp [List.filter, hitsKey, hhit]
      rw [if_neg hhit, hfil]

lemma updateBBox_minX (bb : BBox) (x y : Nat) :
    (updateBBox bb x y).minX = min bb.minX x := by
  simp only [updateBBox, Nat.min_def]
  split <;> split <;> omega

lemma updateBBox_minY (bb : BBox) (x y : Nat) :
    (updateBBox bb x y).minY = min bb.minY y := by
  simp only [updateBBox, Nat.min_def]
  split <;> split <;> omega

lemma updateBBox_maxX (bb : BBox) (x y : Nat) :
    (updateBBox bb x y).maxX = max bb.maxX x := by
  simp only [updateBBox, Nat.max_def, gt_iff_lt]
  split <;> split <;> omega

lemma updateBBox_maxY (bb : BBox) (x y : Nat) :
    (updateBBox bb x y).maxY = max bb.maxY y := by
  simp only [updateBBox, Nat.max_def, gt_iff_lt]
  split <;> split <;> omega

lemma growAll_minX (ps : List (Nat × Nat)) :
    ∀ bb : BBox, (growAll bb ps).minX = (ps.map Prod.fst).foldl min bb.minX := by
  induction ps with
  | nil => intro bb; rfl
  | cons xy ps ih =>
    intro bb
    show (growAll (updateBBox bb xy.1 xy.2) ps).minX = _
    rw [ih, updateBBox_minX]
    rfl

lemma growAll_minY (ps : List (Nat × Nat)) :
    ∀ bb : BBox, (growAll bb ps).minY = (ps.map Prod.snd).foldl min bb.minY := by
  induction ps with
  | nil => intro bb; rfl
  | cons xy ps ih =>
    intro bb
    show (growAll (updateBBox bb xy.1 xy.2) ps).minY = _
    rw [ih, updateBBox_minY]
    rfl

lemma growAll_maxX (ps : List (Nat × Nat)) :
    ∀ bb : BBox, (growAll bb ps).maxX = (ps.map Prod.fst).foldl max bb.maxX := by
  induction ps with
  | nil => intro bb; rfl
  | cons xy ps ih =>
    intro bb
    show (growAll (updateBBox bb xy.1 xy.2) ps).maxX = _
    rw [ih, updateBBox_maxX]
    rfl

lemma growAll_maxY (ps : List (Nat × Nat)) :
    ∀ bb : BBox, (growAll bb ps).maxY = (ps.map Prod.snd).foldl max bb.maxY := by
  induction ps with
  | nil => intro bb; rfl
  | cons xy ps ih =>
    intro bb
    show (growAll (updateBBox bb xy.1 xy.2) ps).maxY = _
    rw [ih, updateBBox_maxY]
    rfl

lemma alookup_pureScan_nil (f : Nat → Nat → Pixel) (k : String)
    (ps : List (Nat × Nat)) :
    alookup (pureScan f ps []) k = seedScan (ps.filter (hitsKey f k)) := by
  have h := alookup_pureScan f k ps []
  simpa [alookup] using h

/-- C3: for every RGBA image, the Extractor's box for identifier `k` is
the component-wise min/max over exactly the coordinates of `k`'s
nonzero-alpha pixels (the first occurrence seeds `[x, y, x, y]`, later
ones expand each bound); no box exists when there are no such pixels. -/
theorem c3_bbox_exact_min_max (img : PILImage) (k : String)
    (h4 : ∀ x, x < img.width → ∀ y, y < img.height →
      arity4 (img.px x y) = true) :
    ∃ res, compute_bounding_boxes (some img) = .ok res ∧
      (coordsOf img k = [] → alookup res.bboxes k = none) ∧
      (∀ x y rest, coordsOf img k = (x, y) :: rest →
        alookup res.bboxes k = some
          ⟨(rest.map Prod.fst).foldl min x, (rest.map Prod.snd).foldl min y,
           (rest.map Prod.fst).foldl max x, (rest.map Prod.snd).foldl max y⟩) := by
  have harity : ∀ xy ∈ pixelList img.width img.height,
      arity4 (img.px xy.1 xy.2) = true := fun xy hxy =>
    h4 xy.1 (mem_pixelList.mp hxy).1 xy.2 (mem_pixelList.mp hxy).2
  have hscan := foldlM_scan_ok img.px (pixelList img.width img.height) [] harity
  refine ⟨⟨img.width, img.height,
    pureScan (fun x y => toPixel (img.px x y))
      (pixelList img.width img.height) []⟩, ?_, ?_, ?_⟩
  · simp only [compute_bounding_boxes, hscan]
    rfl
  · intro hempty
    show alookup (pureScan (fun x y => toPixel (img.px x y))
      (pixelList img.width img.height) []) k = none
    rw [alookup_pureScan_nil]
    show seedScan (coordsOf img k) = none
    rw [hempty]
    rfl
  · intro x y rest hcons
    show alookup (pureScan (fun x y => toPixel (img.px x y))
      (pixelList img.width img.height) []) k = _
    rw [alookup_pureScan_nil]
    show seedScan (coordsOf img k) = _
    rw [hcons]
    show some (growAll ⟨x, y, x, y⟩ rest) = _
    have h1 := growAll_minX rest ⟨x, y, x, y⟩
    have h2 := growAll_minY rest ⟨x, y, x, y⟩
    have h3 := growAll_maxX rest ⟨x, y, x, y⟩
    have h4b := growAll_maxY rest ⟨x, y, x, y⟩
    cases hg : growAll ⟨x, y, x, y⟩ rest with
    | mk a b c d =>
      rw [hg] at h1 h2 h3 h4b
      simp only at h1 h2 h3 h4b
      rw [h1, h2, h3, h4b]

/-- Witness for C3: two opaque pixels of color (1,2,3) (identifier
3·65536 + 2·256 + 1 = 197121) at (5,5) and (10,2) yield the box
[5, 2, 10, 5]. -/
theorem c3_bbox_exact_min_max_witness :
    ∃ res, compute_bounding_boxes (some exampleImageC3) = .ok res ∧
      alookup res.bboxes "197121" = some ⟨5, 2, 10, 5⟩ := by
  obtain ⟨res, hres, _, hcons⟩ :=
    c3_bbox_exact_min_max exampleImageC3 "197121" (by decide)
  have hc : coordsOf exampleImageC3 "197121" = [(10, 2), (5, 5)] := by rfl
  exact ⟨res, hres, (hcons 10 2 [(5, 5)] hc).trans (by decide)⟩

/-- C4: the merged record has exactly the keys of the name mapping; a
mapped identifier missing from bboxes gets a record with no box, and a
bboxes identifier missing from the mapping is dropped. -/
theorem c4_merge_policy (attr : List (String × String))
    (bbs : List (String × BBox)) :
    (mergeObjects attr bbs).map Prod.fst = attr.map Prod.fst ∧
    (∀ ident, alookup (mergeObjects attr bbs) ident =
      (alookup attr ident).map fun nm => ⟨nm, alookup bbs ident⟩) ∧
    alookup (mergeObjects [("7", "Gizmo")]
        [("7", ⟨1, 1, 2, 2⟩), ("9", ⟨0, 0, 1, 1⟩)]) "9" = none ∧
    alookup (mergeObjects [("7", "Gizmo")]
        [("7", ⟨1, 1, 2, 2⟩), ("9", ⟨0, 0, 1, 1⟩)]) "7" =
      some ⟨"Gizmo", some ⟨1, 1, 2, 2⟩⟩ := by
  refine ⟨?_, ?_, by rfl, by rfl⟩
  · simp [mergeObjects]
  · intro ident
    induction attr with
    | nil => rfl
    | cons kv rest ih =>
      by_cases h : kv.1 = ident
      · subst h
        simp [mergeObjects, alookup]
      · simp [mergeObjects, alookup, h] at ih ⊢
        exact ih

lemma string_append_empty (s : String) : s ++ "" = s := by
  cases s with
  | mk data =>
    show String.mk (data ++ []) = String.mk data
    rw [List.append_nil]

/-- C5: the compact serialization joins one `id:name:box` segment per
object with `"|"`, the box field being `min_x,min_y,max_x,max_y` or empty
(with the trailing colon kept) when the object has no box. -/
theorem c5_serialization (objects : List (String × ObjRecord))
    (h : objects ≠ []) :
    bbox_data_serialized objects =
      String.intercalate "|" (objects.map fun kv =>
        kv.1 ++ ":" ++ kv.2.name ++ ":" ++
          (match kv.2.bbox with
           | some bb =>
               toString bb.minX ++ "," ++ toString bb.minY ++ "," ++
                 toString bb.maxX ++ "," ++ toString bb.maxY
           | none => "")) ∧
    bbox_data_serialized [("7", ⟨"Gizmo", some ⟨1, 1, 2, 2⟩⟩)] =
      "7:Gizmo:1,1,2,2" ∧
    bbox_data_serialized [("7", ⟨"Gizmo", none⟩)] = "7:Gizmo:" := by
  refine ⟨?_, by rfl, by rfl⟩
  rw [bbox_data_serialized, if_neg h]
  congr 1
  apply List.map_congr_left
  intro kv _
  cases hb : kv.2.bbox with
  | some bb => simp [serializeObj, hb, String.append_assoc]
  | none => simp [serializeObj, hb, string_append_empty]

/-- Witness for C5 at the singleton object map {"7": Gizmo with box
[1,1,2,2]}. -/
theorem c5_serialization_witness :
    ([("7", (⟨"Gizmo", some ⟨1, 1, 2, 2⟩⟩ : ObjRecord))] ≠ []) ∧
    bbox_data_serialized [("7", ⟨"Gizmo", some ⟨1, 1, 2, 2⟩⟩)] =
      "7:Gizmo:1,1,2,2" :=
  ⟨by decide, (c5_serialization [("7", ⟨"Gizmo", some ⟨1, 1, 2, 2⟩⟩)]
    (by decide)).2.1⟩

/-- C6: an empty upstream name mapping yields object_count = 0 and an
empty objects map, whatever the image fetch produced. -/
theorem c6_empty_mapping_zeroes (s : SensorState)
    (objectsAttr : List (String × String))
    (fetched : Option (Option PILImage)) (h : objectsAttr = []) :
    native_value (process_plate_data s objectsAttr fetched) = 0 ∧
    (process_plate_data s objectsAttr fetched).objects = [] := by
  subst h
  exact ⟨rfl, rfl⟩

/-- Witness for C6: a previously populated state is reset on an empty
mapping even though an image was fetched. -/
theorem c6_empty_mapping_zeroes_witness :
    native_value (process_plate_data ⟨2, [("1", ⟨"A", none⟩)], 8, 8⟩ []
      (some (some ⟨"RGBA", 1, 1, fun _ _ => .t4 0 0 0 255⟩))) = 0 ∧
    (process_plate_data ⟨2, [("1", ⟨"A", none⟩)], 8, 8⟩ []
      (some (some ⟨"RGBA", 1, 1, fun _ _ => .t4 0 0 0 255⟩))).objects = [] :=
  c6_empty_mapping_zeroes ⟨2, [("1", ⟨"A", none⟩)], 8, 8⟩ []
    (some (some ⟨"RGBA", 1, 1, fun _ _ => .t4 0 0 0 255⟩)) rfl

/-- C7: with a non-empty name mapping, a failed image fetch or a raising
Extractor leaves the previously published state completely unchanged. -/
theorem c7_failure_keeps_state (s : SensorState)
    (objectsAttr : List (String × String))
    (fetched : Option (Option PILImage)) (hne : objectsAttr ≠ [])
    (hfail : fetched = none ∨ ∃ imageBytes, fetched = some imageBytes ∧
      compute_bounding_boxes imageBytes = .error ()) :
    process_plate_data s objectsAttr fetched = s := by
  unfold process_plate_data
  rw [if_neg hne]
  rcases hfail with h | ⟨imageBytes, rfl, herr⟩
  · rw [h]
  · simp only [herr]

/-- Witness for C7: a populated state survives a `None` image fetch, and
also survives undecodable image bytes. -/
theorem c7_failure_keeps_state_witness :
    process_plate_data ⟨2, [("1", ⟨"A", none⟩)], 3, 4⟩ [("1", "A")] none =
      ⟨2, [("1", ⟨"A", none⟩)], 3, 4⟩ ∧
    process_plate_data ⟨2, [("1", ⟨"A", none⟩)], 3, 4⟩ [("1", "A")]
      (some none) = ⟨2, [("1", ⟨"A", none⟩)], 3, 4⟩ :=
  ⟨c7_failure_keeps_state _ _ _ (by decide) (Or.inl rfl),
   c7_failure_keeps_state _ _ _ (by decide) (Or.inr ⟨none, rfl, rfl⟩)⟩

/-- C10: every state update preserves object_count = |objects| (so
`native_value` is always the size of the merged record), and a successful
pass publishes exactly one object per entry of the name mapping. -/
theorem c10_count_matches_objects (s : SensorState)
    (objectsAttr : List (String × String))
    (fetched : Option (Option PILImage))
    (hinv : native_value s = s.objects.length) :
    native_value (process_plate_data s objectsAttr fetched) =
      (process_plate_data s objectsAttr fetched).objects.length ∧
    (∀ imageBytes result, objectsAttr ≠ [] → fetched = some imageBytes →
      compute_bounding_boxes imageBytes = .ok result →
      native_value (process_plate_data s objectsAttr fetched) =
        objectsAttr.length) := by
  constructor
  · by_cases h : objectsAttr = []
    · simp [process_plate_data, h, native_value]
    · cases fetched with
      | none => simpa [process_plate_data, h] using hinv
      | some imageBytes =>
        cases hr : compute_bounding_boxes imageBytes with
        | error e => simpa [process_plate_data, h, hr] using hinv
        | ok result => simp [process_plate_data, h, hr, native_value]
  · intro imageBytes result hne hf hok
    subst hf
    simp [process_plate_data, hne, hok, native_value, mergeObjects]

/-- Witness for C10: a successful pass over a 1×1 opaque red image with a
one-entry name mapping publishes exactly one object. -/
theorem c10_count_matches_objects_witness :
    native_value (process_plate_data ⟨0, [], 0, 0⟩ [("255", "X")]
      (some (some ⟨"RGBA", 1, 1, fun _ _ => .t4 255 0 0 255⟩))) = 1 := by
  have h := (c10_count_matches_objects ⟨0, [], 0, 0⟩ [("255", "X")]
    (some (some ⟨"RGBA", 1, 1, fun _ _ => .t4 255 0 0 255⟩)) rfl).2
    (some ⟨"RGBA", 1, 1, fun _ _ => .t4 255 0 0 255⟩)
    ⟨1, 1, [("255", ⟨0, 0, 0, 0⟩)]⟩ (by decide) rfl (by rfl)
  exact h

/-- C9 (amended part): on a decodable image all of whose pixels are
4-tuples (mode "RGBA"), no error branch of `compute_bounding_boxes` is
reachable: the scan returns a result carrying the image dimensions. -/
theorem c9_rgba_scan_total (img : PILImage)
    (h4 : ∀ x, x < img.width → ∀ y, y < img.height →
      arity4 (img.px x y) = true) :
    ∃ res, compute_bounding_boxes (some img) = .ok res ∧
      res.image_width = img.width ∧ res.image_height = img.height := by
  have harity : ∀ xy ∈ pixelList img.width img.height,
      arity4 (img.px xy.1 xy.2) = true := fun xy hxy =>
    h4 xy.1 (mem_pixelList.mp hxy).1 xy.2 (mem_pixelList.mp hxy).2
  have hscan := foldlM_scan_ok img.px (pixelList img.width img.height) [] harity
  refine ⟨AnalysisResult.mk img.width img.height
    ((pixelList img.width img.height).foldl
      (fun bbs xy => stepPixel bbs xy.1 xy.2 (toPixel (img.px xy.1 xy.2))) []),
    ?_, rfl, rfl⟩
  simp only [compute_bounding_boxes, hscan]

/-- Witness for C9's amended theorem at a 1×1 RGBA image. -/
theorem c9_rgba_scan_total_witness :
    ∃ res, compute_bounding_boxes
        (some (⟨"RGBA", 1, 1, fun _ _ => .t4 1 2 3 255⟩ : PILImage)) =
        .ok res ∧ res.image_width = 1 ∧ res.image_height = 1 :=
  c9_rgba_scan_total ⟨"RGBA", 1, 1, fun _ _ => .t4 1 2 3 255⟩ (by decide)

/-- Counterexample to C9 as stated: a successfully decoded 1×1 mode-"RGB"
image (3-tuple pixels) reaches the error branch during the pixel scan —
the unpacking `r, g, b, a = current_color` raises on a 3-tuple. -/
theorem c9_decoded_rgb_image_raises :
    compute_bounding_boxes
      (some (⟨"RGB", 1, 1, fun _ _ => .t3 10 20 30⟩ : PILImage)) =
      .error () := by rfl

lemma muldiv255_zero (c : Nat) : muldiv255 c 0 = 0 := by
  simp [muldiv255]

lemma muldiv255_opaque (c : Nat) (h : c < 256) : muldiv255 c 255 = c := by
  unfold muldiv255
  omega

/-- C8 (amended): in mode "RGBA" the Normalizer composites onto opaque
black with PIL's rounding alpha blend — alpha 0 yields black, alpha 255
keeps the RGB, fractional alpha scales each channel by `alpha/255` — any
other non-"RGB" mode is converted to RGB without compositing, and the
raster is encoded at the given quality, 80 by default. -/
theorem c8_rgba_black_composite (image : PILImage) (q x y r g b a : Nat)
    (hm : image.mode = "RGBA") (hp : image.px x y = .t4 r g b a)
    (hr : r < 256) (hg : g < 256) (hb : b < 256) :
    (convert_to_jpeg image q).image.px x y =
      (muldiv255 r a, muldiv255 g a, muldiv255 b a) ∧
    (a = 0 → (convert_to_jpeg image q).image.px x y = (0, 0, 0)) ∧
    (a = 255 → (convert_to_jpeg image q).image.px x y = (r, g, b)) ∧
    (convert_to_jpeg image q).quality = q ∧
    (convert_to_jpeg image).quality = 80 ∧
    (∀ other : PILImage, other.mode ≠ "RGBA" → other.mode ≠ "RGB" →
      (convert_to_jpeg other q).image = convertRGB other) := by
  have hpx : (convert_to_jpeg image q).image.px x y =
      (muldiv255 r a, muldiv255 g a, muldiv255 b a) := by
    simp [convert_to_jpeg, hm, pasteOnBlack, hp]
  refine ⟨hpx, ?_, ?_, by simp [convert_to_jpeg, hm], by simp [convert_to_jpeg, hm], ?_⟩
  · intro ha
    subst ha
    rw [hpx, muldiv255_zero, muldiv255_zero, muldiv255_zero]
  · intro ha
    subst ha
    rw [hpx, muldiv255_opaque r hr, muldiv255_opaque g hg, muldiv255_opaque b hb]
  · intro other h1 h2
    simp [convert_to_jpeg, h1, h2]

/-- Witness for C8's amended theorem: a 1×1 RGBA image whose single pixel
is (10, 20, 30) at alpha 0 composites to black. -/
theorem c8_rgba_black_composite_witness :
    (convert_to_jpeg (⟨"RGBA", 1, 1, fun _ _ => .t4 10 20 30 0⟩ : PILImage)
      80).image.px 0 0 = (0, 0, 0) :=
  (c8_rgba_black_composite ⟨"RGBA", 1, 1, fun _ _ => .t4 10 20 30 0⟩
    80 0 0 10 20 30 0 rfl rfl (by decide) (by decide) (by decide)).2.1 rfl

/-- Counterexample to C8 as stated: mode "LA" has an alpha channel, yet
`convert_to_jpeg` does not composite it onto black — its fully
transparent gray-200 pixel comes out (200, 200, 200), not (0, 0, 0). -/
theorem c8_la_not_composited :
    hasAlphaChannel exampleImageLA.mode = true ∧
    exampleImageLA.px 0 0 = .t2 200 0 ∧
    (convert_to_jpeg exampleImageLA 80).image.px 0 0 = (200, 200, 200) ∧
    (convert_to_jpeg exampleImageLA 80).image.px 0 0 ≠ (0, 0, 0) := by
  refine ⟨by rfl, by rfl, by rfl, ?_⟩
  decide
